import Mathlib

/-!
Shallow embedding of the Settlement Reconciliation Engine of
`stellar-anchor-server` (src/deposit/tasks.py and the withdrawal matcher),
together with theorems settling the specification claims.

The deposit worker `create_stellar_deposit`, the poller `check_trustlines`
and the withdrawal matcher `process_withdrawal` are modelled as pure
functions over an explicit transaction record and an oracle describing the
outcome of each external ledger (Horizon) call.  Each run returns the final
transaction record, the ordered trace of persistence writes and ledger
calls, and the exception (if any) that propagates to the caller.
-/

namespace Anchor

/-- The transaction statuses used by the engine
(`Transaction.STATUS.*` in the source). -/
inductive Status
  | pending_anchor
  | pending_trust
  | pending_stellar
  | completed
  | pending_user_transfer_start
  deriving DecidableEq, Repr

/-- The fields of a `Transaction` record read or written by the engine.
Amounts are exact decimals, modelled as rationals. `none` models a
NULL/unset field. -/
structure Transaction where
  id : Nat
  status : Status
  stellar_account : String
  asset_code : String
  amount_in : ℚ
  amount_fee : ℚ
  amount_out : Option ℚ
  stellar_transaction_id : Option String
  status_eta : Option ℤ
  completed_at : Option ℕ
  deriving DecidableEq, Repr

/-- A `BaseHorizonError` raised by the ledger client: the HTTP status,
a message, and the `result_xdr` payload carried by submission errors
(always present per the ledger interface: `SubmissionError{resultCode}`). -/
structure HorizonError where
  status : Nat
  message : String
  result_xdr : String
  deriving DecidableEq, Repr

/-- Response of a successful `submit_transaction` call. -/
structure TxResponse where
  result_xdr : String
  hash : String
  deriving DecidableEq, Repr

/-- The two kinds of envelopes the worker submits. -/
inductive SubmitKind
  | createAccount
  | payment
  deriving DecidableEq, Repr

/-- One balance entry of a Horizon account record; `asset_code := none`
models a JSON object lacking the `asset_code` key (KeyError on access). -/
structure Balance where
  asset_code : Option String
  deriving DecidableEq, Repr

/-- A Horizon account record as seen by the poller; `balances := none`
models a response lacking the `balances` key. -/
structure AccountRecord where
  balances : Option (List Balance)
  deriving DecidableEq, Repr

/-- Oracle fixing the outcome of every external ledger call made during a
run: `load_account`, `fetch_base_fee`, `submit_transaction` (for each
envelope kind), and the account query of the poller
(`accounts().account_id(x).call()`). -/
structure Horizon where
  loadAccount : String → Except HorizonError Unit
  fetchBaseFee : Except HorizonError Nat
  submit : SubmitKind → Except HorizonError TxResponse
  accountCall : String → Except HorizonError AccountRecord

/-- The Django settings the engine reads, plus the current wall-clock time
used for `completed_at = now()`. -/
structure Settings where
  distributionAccount : String
  now : ℕ

/-- Observable actions of a run, in order: persistence writes
(`transaction.save()`) and ledger network calls. -/
inductive Event
  | save (t : Transaction)
  | ledgerLoad (addr : String)
  | ledgerFetchFee
  | ledgerSubmit (k : SubmitKind)
  deriving DecidableEq, Repr

/-- Outcome of one worker invocation: ordered event trace, the final
(in-memory and persisted) transaction record, and the `BaseHorizonError`
that propagates out of the call, if any. -/
structure RunResult where
  events : List Event
  final : Transaction
  raised : Option HorizonError
  deriving DecidableEq, Repr

/-- Constant `TRUSTLINE_FAILURE_XDR` of src/deposit/tasks.py, line 15. -/
def TRUSTLINE_FAILURE_XDR : String := "AAAAAAAAAGT/////AAAAAQAAAAAAAAAB////+gAAAAA="

/-- Constant `SUCCESS_XDR` of src/deposit/tasks.py, line 16. -/
def SUCCESS_XDR : String := "AAAAAAAAAGQAAAAAAAAAAQAAAAAAAAABAAAAAAAAAAA="

/-- Boolean list-prefix test, auxiliary to the substring test below. -/
def isPrefixZ : List Char → List Char → Bool
  | [], _ => true
  | _ :: _, [] => false
  | a :: as, b :: bs => a = b && isPrefixZ as bs

/-- Whether `n` occurs as a contiguous sublist of the second argument. -/
def containsSubZ (n : List Char) : List Char → Bool
  | [] => n.isEmpty
  | c :: t => isPrefixZ n (c :: t) || containsSubZ n t

/-- Substring containment, as the Python operator `in` on strings. -/
def strContains (needle hay : String) : Bool :=
  containsSubZ needle.data hay.data

/-- Round `n / d` (with `d > 0`) half-to-even to an integer, by integer
arithmetic: `f` is the floor, `r` the nonnegative remainder, and the
fraction part `r / d` is compared with `1 / 2` via `2 * r` versus `d`. -/
def roundHalfEven (n d : ℤ) : ℤ :=
  let f := n.fdiv d
  let r := n - f * d
  if 2 * r < d then f
  else if d < 2 * r then f + 1
  else if f % 2 = 0 then f else f + 1

/-- Rounding as Python `round(x, 7)` on exact decimal quantities (half-to-even at
the 7th decimal place): `x * 10 ^ 7 = (x.num * 10 ^ 7) / x.den` is rounded
to an integer and divided back. -/
def round7 (q : ℚ) : ℚ :=
  Rat.divInt (roundHalfEven (q.num * 10000000) (q.den : ℤ)) 10000000

/-- Shallow embedding of `create_stellar_deposit(transaction_id)`
(src/deposit/tasks.py, lines 22–125).  The caller passes the loaded
transaction row `t0`; the oracle `h` fixes the ledger-call outcomes. -/
def create_stellar_deposit (st : Settings) (h : Horizon) (t0 : Transaction) :
    RunResult :=
  -- idempotency gate: lines 30–38
  if t0.status = Status.pending_anchor ∨ t0.status = Status.pending_trust then
    -- lines 39–40: the mutex write `{ t0 with status := pending_stellar }` is
    -- persisted first, before every ledger call below; line 55 is
    -- `load_account(distribution)` and line 56 is `fetch_base_fee()`, both
    -- outside every try/except block
    match h.loadAccount st.distributionAccount with
    | .error e =>
      { events := [Event.save { t0 with status := Status.pending_stellar },
                   Event.ledgerLoad st.distributionAccount],
        final := { t0 with status := Status.pending_stellar }, raised := some e }
    | .ok _ =>
      match h.fetchBaseFee with
      | .error e =>
        { events := [Event.save { t0 with status := Status.pending_stellar },
                     Event.ledgerLoad st.distributionAccount, Event.ledgerFetchFee],
          final := { t0 with status := Status.pending_stellar }, raised := some e }
      | .ok _ =>
        -- lines 60–85: destination account lookup
        match h.loadAccount t0.stellar_account with
        | .error address_exc =>
          if address_exc.status ≠ 404 then
            -- lines 64–69: transient lookup failure — log and return
            { events := [Event.save { t0 with status := Status.pending_stellar },
                         Event.ledgerLoad st.distributionAccount, Event.ledgerFetchFee,
                         Event.ledgerLoad t0.stellar_account],
              final := { t0 with status := Status.pending_stellar }, raised := none }
          else
            -- lines 70–85: create the destination account
            match h.submit SubmitKind.createAccount with
            | .error _ =>
              { events := [Event.save { t0 with status := Status.pending_stellar },
                           Event.ledgerLoad st.distributionAccount, Event.ledgerFetchFee,
                           Event.ledgerLoad t0.stellar_account,
                           Event.ledgerSubmit SubmitKind.createAccount],
                final := { t0 with status := Status.pending_stellar }, raised := none }
            | .ok _ =>
              { events := [Event.save { t0 with status := Status.pending_stellar },
                           Event.ledgerLoad st.distributionAccount, Event.ledgerFetchFee,
                           Event.ledgerLoad t0.stellar_account,
                           Event.ledgerSubmit SubmitKind.createAccount,
                           Event.save { t0 with status := Status.pending_trust }],
                final := { t0 with status := Status.pending_trust }, raised := none }
        | .ok _ =>
          -- lines 92–125: payment submission
          match h.submit SubmitKind.payment with
          | .error exc =>
            if strContains TRUSTLINE_FAILURE_XDR exc.result_xdr then
              -- lines 109–112: no-trustline failure
              { events := [Event.save { t0 with status := Status.pending_stellar },
                           Event.ledgerLoad st.distributionAccount, Event.ledgerFetchFee,
                           Event.ledgerLoad t0.stellar_account,
                           Event.ledgerSubmit SubmitKind.payment,
                           Event.save { t0 with status := Status.pending_trust }],
                final := { t0 with status := Status.pending_trust }, raised := none }
            else
              -- lines 103–108: other submission failure
              { events := [Event.save { t0 with status := Status.pending_stellar },
                           Event.ledgerLoad st.distributionAccount, Event.ledgerFetchFee,
                           Event.ledgerLoad t0.stellar_account,
                           Event.ledgerSubmit SubmitKind.payment],
                final := { t0 with status := Status.pending_stellar }, raised := none }
          | .ok response =>
            if response.result_xdr ≠ SUCCESS_XDR then
              -- lines 116–118
              { events := [Event.save { t0 with status := Status.pending_stellar },
                           Event.ledgerLoad st.distributionAccount, Event.ledgerFetchFee,
                           Event.ledgerLoad t0.stellar_account,
                           Event.ledgerSubmit SubmitKind.payment],
                final := { t0 with status := Status.pending_stellar }, raised := none }
            else
              -- lines 120–125: the payment succeeded
              { events := [Event.save { t0 with status := Status.pending_stellar },
                           Event.ledgerLoad st.distributionAccount, Event.ledgerFetchFee,
                           Event.ledgerLoad t0.stellar_account,
                           Event.ledgerSubmit SubmitKind.payment,
                           Event.save { t0 with
                             stellar_transaction_id := some response.hash,
                             status := Status.completed,
                             completed_at := some st.now,
                             status_eta := some 0,
                             amount_out := some (round7 (t0.amount_in - t0.amount_fee)) }],
                final := { t0 with
                  stellar_transaction_id := some response.hash,
                  status := Status.completed,
                  completed_at := some st.now,
                  status_eta := some 0,
                  amount_out := some (round7 (t0.amount_in - t0.amount_fee)) },
                raised := none }
  else
    { events := [], final := t0, raised := none }

/-- Lookup `Transaction.objects.get(id=i)` over the database, modelled as a list of
rows: the first row with the given id. -/
def getById (db : List Transaction) (i : Nat) : Option Transaction :=
  db.find? (fun x => x.id = i)

/-- Persist an updated row: every row with the same id is replaced. -/
def updateById (db : List Transaction) (u : Transaction) : List Transaction :=
  db.map (fun x => if x.id = u.id then u else x)

/-- Outcome of one poller tick: final database, ids of the worker
invocations made (in order, with repetitions), and the exception that
propagates out of the tick, if any. -/
structure CtlResult where
  db : List Transaction
  invoked : List Nat
  raised : Option HorizonError
  deriving DecidableEq, Repr

/-- Inner loop of `check_trustlines` over the balance entries of one
snapshot row (src/deposit/tasks.py, lines 147–154): on a matching
`asset_code` the worker is invoked synchronously with the transaction id
(a fresh `Transaction.objects.get`); an exception propagating out of the
worker aborts the tick. -/
def scanBalances (st : Settings) (h : Horizon) (tid : Nat) (assetCode : String) :
    List Balance → List Transaction → CtlResult
  | [], db => { db := db, invoked := [], raised := none }
  | b :: rest, db =>
    match b.asset_code with
    | none => scanBalances st h tid assetCode rest db
    | some code =>
      if code = assetCode then
        match getById db tid with
        | none => { db := db, invoked := [], raised := none }
        | some row =>
          match create_stellar_deposit st h row with
          | { events := _, final := fin, raised := some e } =>
            { db := updateById db fin, invoked := [tid], raised := some e }
          | { events := _, final := fin, raised := none } =>
            let res := scanBalances st h tid assetCode rest (updateById db fin)
            { db := res.db, invoked := tid :: res.invoked, raised := res.raised }
      else scanBalances st h tid assetCode rest db

/-- Outer loop of `check_trustlines` over the snapshot of `pending_trust`
rows (src/deposit/tasks.py, lines 136–154). -/
def ctlLoop (st : Settings) (h : Horizon) :
    List Transaction → List Transaction → CtlResult
  | [], db => { db := db, invoked := [], raised := none }
  | t :: rest, db =>
    match h.accountCall t.stellar_account with
    | .error _ => ctlLoop st h rest db
    | .ok acct =>
      match acct.balances with
      | none => ctlLoop st h rest db
      | some balances =>
        match scanBalances st h t.id t.asset_code balances db with
        | { db := db1, invoked := inv, raised := some e } =>
          { db := db1, invoked := inv, raised := some e }
        | { db := db1, invoked := inv, raised := none } =>
          let res := ctlLoop st h rest db1
          { db := res.db, invoked := inv ++ res.invoked, raised := res.raised }

/-- Shallow embedding of the periodic task `check_trustlines()`
(src/deposit/tasks.py, lines 128–154): filter the rows with status
`pending_trust` (the query snapshot) and process each in turn. -/
def check_trustlines (st : Settings) (h : Horizon) (db : List Transaction) :
    CtlResult :=
  ctlLoop st h (db.filter (fun t => t.status = Status.pending_trust)) db

/-- An incoming ledger payment record as consumed by the withdrawal
matcher: `{memo_type, memo, successful, id, envelope_xdr}`. -/
structure PaymentRecord where
  memo_type : String
  memo : String
  successful : Bool
  id : String
  envelope_xdr : String
  deriving DecidableEq, Repr

/-- Modelled from the spec: `process_withdrawal(response, transaction)` of
`transaction/management/commands/watch_transactions.py` is not under src/
(only its tests are).  Spec §4.4: if the `successful` flag of the payment record
is true, set `status = completed`, `completed_at = now`, and record
the ledger transaction id; if false, set `status = pending_stellar`. -/
def process_withdrawal (now : ℕ) (p : PaymentRecord) (t : Transaction) :
    Transaction :=
  if p.successful then
    { t with
      status := Status.completed,
      completed_at := some now,
      stellar_transaction_id := some p.id }
  else
    { t with status := Status.pending_stellar }

/-- Number of `submit_transaction` calls in a trace. -/
def submitCount : List Event → Nat
  | [] => 0
  | Event.ledgerSubmit _ :: rest => submitCount rest + 1
  | _ :: rest => submitCount rest

/-- Number of `submit_transaction` calls of one kind in a trace. -/
def submitCountK (k : SubmitKind) : List Event → Nat
  | [] => 0
  | Event.ledgerSubmit k2 :: rest =>
    if k2 = k then submitCountK k rest + 1 else submitCountK k rest
  | _ :: rest => submitCountK k rest

/-- The persisted writes of a trace, in order. -/
def saves : List Event → List Transaction
  | [] => []
  | Event.save t :: rest => t :: saves rest
  | _ :: rest => saves rest

/-- Position of a status in the §4.1 transition graph
(`pending_anchor → pending_trust → pending_stellar → completed`;
`pending_user_transfer_start → pending_stellar/completed`). -/
def rank : Status → Nat
  | Status.pending_anchor => 0
  | Status.pending_user_transfer_start => 0
  | Status.pending_trust => 1
  | Status.pending_stellar => 2
  | Status.completed => 3

/-- Re-invocation condition of the poller for one `pending_trust` row: the
destination account loads, the response has a `balances` list, and some
balance entry carries an `asset_code` equal to the asset code of the
transaction. -/
def eligible (h : Horizon) (t : Transaction) : Bool :=
  match h.accountCall t.stellar_account with
  | .error _ => false
  | .ok acct =>
    match acct.balances with
    | none => false
    | some bs => bs.any (fun b => b.asset_code = some t.asset_code)

/-! Concrete fixtures used by witnesses and counterexamples. -/

/-- Example settings. -/
def exSettings : Settings := { distributionAccount := "DIST", now := 42 }

/-- A deposit transaction in `pending_anchor`. -/
def exDeposit : Transaction :=
  { id := 1, status := Status.pending_anchor, stellar_account := "ACC1",
    asset_code := "USD", amount_in := 100, amount_fee := 1, amount_out := none,
    stellar_transaction_id := none, status_eta := none, completed_at := none }

/-- The same transaction already completed. -/
def exCompleted : Transaction := { exDeposit with status := Status.completed }

/-- The same transaction in `pending_trust`. -/
def exTrust1 : Transaction := { exDeposit with status := Status.pending_trust }

/-- A second `pending_trust` transaction with a distinct id and account. -/
def exTrust2 : Transaction :=
  { exDeposit with
    id := 2
    stellar_account := "ACC2"
    status := Status.pending_trust }

/-- A withdrawal transaction awaiting the ledger payment of the user. -/
def exWithdrawal : Transaction :=
  { exDeposit with id := 3, status := Status.pending_user_transfer_start }

/-- An incoming ledger payment record. -/
def exPayment : PaymentRecord :=
  { memo_type := "hash", memo := "m1", successful := true, id := "ledgertx",
    envelope_xdr := "xdr" }

/-- A Horizon account record holding a USD balance entry. -/
def usdAccount : AccountRecord := { balances := some [{ asset_code := some "USD" }] }

/-- A ledger where every call succeeds and the payment returns the
canonical success result code. -/
def horizonOk : Horizon :=
  { loadAccount := fun _ => Except.ok (),
    fetchBaseFee := Except.ok 100,
    submit := fun _ => Except.ok { result_xdr := SUCCESS_XDR, hash := "txhash" },
    accountCall := fun _ => Except.ok usdAccount }

/-- A ledger where every submission fails with the no-trustline result
code embedded in the error payload. -/
def horizonTrustline : Horizon :=
  { horizonOk with
    submit := fun _ => Except.error
      { status := 400, message := "op failed",
        result_xdr := "wrapped:" ++ TRUSTLINE_FAILURE_XDR } }

/-- A ledger where the base-fee fetch fails. -/
def horizonFeeDown : Horizon :=
  { horizonOk with
    fetchBaseFee := Except.error
      { status := 503, message := "ledger down", result_xdr := "" } }

/-- A ledger where every account lookup except the distribution account
fails transiently (HTTP 500). -/
def horizonLookupDown : Horizon :=
  { horizonOk with
    loadAccount := fun a =>
      if a = "DIST" then Except.ok ()
      else Except.error { status := 500, message := "timeout", result_xdr := "" } }

/-- A ledger where the destination account is missing (HTTP 404) and the
create-account submission succeeds. -/
def horizonNoAccount : Horizon :=
  { horizonOk with
    loadAccount := fun a =>
      if a = "DIST" then Except.ok ()
      else Except.error { status := 404, message := "missing", result_xdr := "" } }

/-- A ledger where the destination account is missing and the
create-account submission also fails. -/
def horizonNoAccountSubmitDown : Horizon :=
  { horizonNoAccount with
    submit := fun _ => Except.error
      { status := 504, message := "gateway timeout", result_xdr := "" } }

/-! Run characterizations of `create_stellar_deposit`, one per outcome of
the ledger oracle. -/

/-- With a status outside the gate, the worker is a strict no-op. -/
theorem csd_noop_eq (st : Settings) (h : Horizon) (t0 : Transaction)
    (hs : ¬(t0.status = Status.pending_anchor ∨ t0.status = Status.pending_trust)) :
    create_stellar_deposit st h t0 = { events := [], final := t0, raised := none } := by
  unfold create_stellar_deposit
  rw [if_neg hs]

/-- Run where the distribution-account load raises. -/
theorem csd_distErr_eq (st : Settings) (h : Horizon) (t0 : Transaction)
    (e : HorizonError)
    (hs : t0.status = Status.pending_anchor ∨ t0.status = Status.pending_trust)
    (hA : h.loadAccount st.distributionAccount = Except.error e) :
    create_stellar_deposit st h t0 =
      { events := [Event.save { t0 with status := Status.pending_stellar },
                   Event.ledgerLoad st.distributionAccount],
        final := { t0 with status := Status.pending_stellar },
        raised := some e } := by
  unfold create_stellar_deposit
  rw [if_pos hs, hA]

/-- Run where the base-fee fetch raises. -/
theorem csd_feeErr_eq (st : Settings) (h : Horizon) (t0 : Transaction)
    (e : HorizonError)
    (hs : t0.status = Status.pending_anchor ∨ t0.status = Status.pending_trust)
    (hA : h.loadAccount st.distributionAccount = Except.ok ())
    (hB : h.fetchBaseFee = Except.error e) :
    create_stellar_deposit st h t0 =
      { events := [Event.save { t0 with status := Status.pending_stellar },
                   Event.ledgerLoad st.distributionAccount, Event.ledgerFetchFee],
        final := { t0 with status := Status.pending_stellar },
        raised := some e } := by
  unfold create_stellar_deposit
  rw [if_pos hs, hA, hB]

/-- Run where the destination lookup fails transiently (non-404). -/
theorem csd_lookupErr_eq (st : Settings) (h : Horizon) (t0 : Transaction)
    (f : Nat) (e : HorizonError)
    (hs : t0.status = Status.pending_anchor ∨ t0.status = Status.pending_trust)
    (hA : h.loadAccount st.distributionAccount = Except.ok ())
    (hB : h.fetchBaseFee = Except.ok f)
    (hC : h.loadAccount t0.stellar_account = Except.error e)
    (h404 : e.status ≠ 404) :
    create_stellar_deposit st h t0 =
      { events := [Event.save { t0 with status := Status.pending_stellar },
                   Event.ledgerLoad st.distributionAccount, Event.ledgerFetchFee,
                   Event.ledgerLoad t0.stellar_account],
        final := { t0 with status := Status.pending_stellar },
        raised := none } := by
  unfold create_stellar_deposit
  rw [if_pos hs, hA, hB, hC]
  simp [h404]

/-- Run where the destination is missing and the create-account
submission fails. -/
theorem csd_createErr_eq (st : Settings) (h : Horizon) (t0 : Transaction)
    (f : Nat) (e e2 : HorizonError)
    (hs : t0.status = Status.pending_anchor ∨ t0.status = Status.pending_trust)
    (hA : h.loadAccount st.distributionAccount = Except.ok ())
    (hB : h.fetchBaseFee = Except.ok f)
    (hC : h.loadAccount t0.stellar_account = Except.error e)
    (h404 : e.status = 404)
    (hD : h.submit SubmitKind.createAccount = Except.error e2) :
    create_stellar_deposit st h t0 =
      { events := [Event.save { t0 with status := Status.pending_stellar },
                   Event.ledgerLoad st.distributionAccount, Event.ledgerFetchFee,
                   Event.ledgerLoad t0.stellar_account,
                   Event.ledgerSubmit SubmitKind.createAccount],
        final := { t0 with status := Status.pending_stellar },
        raised := none } := by
  unfold create_stellar_deposit
  rw [if_pos hs, hA, hB, hC, hD]
  simp [h404]

/-- Run where the destination is missing and the create-account
submission succeeds. -/
theorem csd_createOk_eq (st : Settings) (h : Horizon) (t0 : Transaction)
    (f : Nat) (e : HorizonError) (u : TxResponse)
    (hs : t0.status = Status.pending_anchor ∨ t0.status = Status.pending_trust)
    (hA : h.loadAccount st.distributionAccount = Except.ok ())
    (hB : h.fetchBaseFee = Except.ok f)
    (hC : h.loadAccount t0.stellar_account = Except.error e)
    (h404 : e.status = 404)
    (hD : h.submit SubmitKind.createAccount = Except.ok u) :
    create_stellar_deposit st h t0 =
      { events := [Event.save { t0 with status := Status.pending_stellar },
                   Event.ledgerLoad st.distributionAccount, Event.ledgerFetchFee,
                   Event.ledgerLoad t0.stellar_account,
                   Event.ledgerSubmit SubmitKind.createAccount,
                   Event.save { t0 with status := Status.pending_trust }],
        final := { t0 with status := Status.pending_trust },
        raised := none } := by
  unfold create_stellar_deposit
  rw [if_pos hs, hA, hB, hC, hD]
  simp [h404]

/-- Run where the payment submission fails with the no-trustline result
code in the payload. -/
theorem csd_trustlineErr_eq (st : Settings) (h : Horizon) (t0 : Transaction)
    (f : Nat) (e : HorizonError)
    (hs : t0.status = Status.pending_anchor ∨ t0.status = Status.pending_trust)
    (hA : h.loadAccount st.distributionAccount = Except.ok ())
    (hB : h.fetchBaseFee = Except.ok f)
    (hC : h.loadAccount t0.stellar_account = Except.ok ())
    (hD : h.submit SubmitKind.payment = Except.error e)
    (htl : strContains TRUSTLINE_FAILURE_XDR e.result_xdr = true) :
    create_stellar_deposit st h t0 =
      { events := [Event.save { t0 with status := Status.pending_stellar },
                   Event.ledgerLoad st.distributionAccount, Event.ledgerFetchFee,
                   Event.ledgerLoad t0.stellar_account,
                   Event.ledgerSubmit SubmitKind.payment,
                   Event.save { t0 with status := Status.pending_trust }],
        final := { t0 with status := Status.pending_trust },
        raised := none } := by
  unfold create_stellar_deposit
  rw [if_pos hs, hA, hB, hC, hD]
  simp [htl]

/-- Run where the payment submission fails without the no-trustline
result code. -/
theorem csd_otherErr_eq (st : Settings) (h : Horizon) (t0 : Transaction)
    (f : Nat) (e : HorizonError)
    (hs : t0.status = Status.pending_anchor ∨ t0.status = Status.pending_trust)
    (hA : h.loadAccount st.distributionAccount = Except.ok ())
    (hB : h.fetchBaseFee = Except.ok f)
    (hC : h.loadAccount t0.stellar_account = Except.ok ())
    (hD : h.submit SubmitKind.payment = Except.error e)
    (htl : strContains TRUSTLINE_FAILURE_XDR e.result_xdr = false) :
    create_stellar_deposit st h t0 =
      { events := [Event.save { t0 with status := Status.pending_stellar },
                   Event.ledgerLoad st.distributionAccount, Event.ledgerFetchFee,
                   Event.ledgerLoad t0.stellar_account,
                   Event.ledgerSubmit SubmitKind.payment],
        final := { t0 with status := Status.pending_stellar },
        raised := none } := by
  unfold create_stellar_deposit
  rw [if_pos hs, hA, hB, hC, hD]
  simp [htl]

/-- Run where the payment submission returns a non-success result code. -/
theorem csd_badXdr_eq (st : Settings) (h : Horizon) (t0 : Transaction)
    (f : Nat) (resp : TxResponse)
    (hs : t0.status = Status.pending_anchor ∨ t0.status = Status.pending_trust)
    (hA : h.loadAccount st.distributionAccount = Except.ok ())
    (hB : h.fetchBaseFee = Except.ok f)
    (hC : h.loadAccount t0.stellar_account = Except.ok ())
    (hD : h.submit SubmitKind.payment = Except.ok resp)
    (hX : resp.result_xdr ≠ SUCCESS_XDR) :
    create_stellar_deposit st h t0 =
      { events := [Event.save { t0 with status := Status.pending_stellar },
                   Event.ledgerLoad st.distributionAccount, Event.ledgerFetchFee,
                   Event.ledgerLoad t0.stellar_account,
                   Event.ledgerSubmit SubmitKind.payment],
        final := { t0 with status := Status.pending_stellar },
        raised := none } := by
  unfold create_stellar_deposit
  rw [if_pos hs, hA, hB, hC, hD]
  simp [hX]

/-- Run where the payment submission succeeds with the canonical success
result code. -/
theorem csd_success_eq (st : Settings) (h : Horizon) (t0 : Transaction)
    (f : Nat) (resp : TxResponse)
    (hs : t0.status = Status.pending_anchor ∨ t0.status = Status.pending_trust)
    (hA : h.loadAccount st.distributionAccount = Except.ok ())
    (hB : h.fetchBaseFee = Except.ok f)
    (hC : h.loadAccount t0.stellar_account = Except.ok ())
    (hD : h.submit SubmitKind.payment = Except.ok resp)
    (hX : resp.result_xdr = SUCCESS_XDR) :
    create_stellar_deposit st h t0 =
      { events := [Event.save { t0 with status := Status.pending_stellar },
                   Event.ledgerLoad st.distributionAccount, Event.ledgerFetchFee,
                   Event.ledgerLoad t0.stellar_account,
                   Event.ledgerSubmit SubmitKind.payment,
                   Event.save { t0 with
                     stellar_transaction_id := some resp.hash,
                     status := Status.completed,
                     completed_at := some st.now,
                     status_eta := some 0,
                     amount_out := some (round7 (t0.amount_in - t0.amount_fee)) }],
        final := { t0 with
          stellar_transaction_id := some resp.hash,
          status := Status.completed,
          completed_at := some st.now,
          status_eta := some 0,
          amount_out := some (round7 (t0.amount_in - t0.amount_fee)) },
        raised := none } := by
  unfold create_stellar_deposit
  rw [if_pos hs, hA, hB, hC, hD]
  simp [hX]

/-! Facts about every run of the worker. -/

/-- The worker never changes the id of the row. -/
theorem csd_final_id (st : Settings) (h : Horizon) (t0 : Transaction) :
    (create_stellar_deposit st h t0).final.id = t0.id := by
  unfold create_stellar_deposit
  split <;> try split <;> try split <;> try split <;> try split <;> try split
  all_goals rfl

/-- A single invocation performs at most one ledger submission. -/
theorem csd_submit_le (st : Settings) (h : Horizon) (t0 : Transaction) :
    submitCount (create_stellar_deposit st h t0).events ≤ 1 := by
  unfold create_stellar_deposit
  split <;> try split <;> try split <;> try split <;> try split <;> try split
  all_goals simp [submitCount]

/-- Entry-to-exit, a single invocation never regresses the status in the
transition graph. -/
theorem csd_rank_mono (st : Settings) (h : Horizon) (t0 : Transaction) :
    rank t0.status ≤ rank (create_stellar_deposit st h t0).final.status := by
  unfold create_stellar_deposit
  split
  · rename_i hs
    have h1 : rank t0.status ≤ 1 := by
      rcases hs with hs | hs <;> simp [hs, rank]
    split <;> try split <;> try split <;> try split <;> try split
    all_goals (simp only [rank] at h1 ⊢; omega)
  · exact Nat.le_refl _

/-- When the distribution-account load and the base-fee fetch succeed, no
exception propagates out of the worker. -/
theorem csd_raised_none (st : Settings) (h : Horizon) (t0 : Transaction) (f : Nat)
    (hA : h.loadAccount st.distributionAccount = Except.ok ())
    (hB : h.fetchBaseFee = Except.ok f) :
    (create_stellar_deposit st h t0).raised = none := by
  unfold create_stellar_deposit
  rw [hA, hB]
  split <;> try split <;> try split <;> try split <;> try split <;> try split
  all_goals first
  | rfl
  | simp_all

/-- With a gate status, the first event of the run is the persisted mutex
write, ahead of every ledger call. -/
theorem csd_mutex_first (st : Settings) (h : Horizon) (t0 : Transaction)
    (hs : t0.status = Status.pending_anchor ∨ t0.status = Status.pending_trust) :
    ∃ rest, (create_stellar_deposit st h t0).events
      = Event.save { t0 with status := Status.pending_stellar } :: rest := by
  unfold create_stellar_deposit
  rw [if_pos hs]
  split <;> try split <;> try split <;> try split <;> try split
  all_goals exact ⟨_, rfl⟩

/-! Facts about the database list model. -/

/-- Unfolding lemma: lookup in a cons cell. -/
theorem getById_cons (x : Transaction) (xs : List Transaction) (i : Nat) :
    getById (x :: xs) i = if x.id = i then some x else getById xs i := by
  by_cases hx : x.id = i <;> simp [getById, List.find?_cons, hx]

/-- Unfolding lemma: update of a cons cell. -/
theorem updateById_cons (x : Transaction) (xs : List Transaction) (u : Transaction) :
    updateById (x :: xs) u = (if x.id = u.id then u else x) :: updateById xs u := rfl

/-- A found row carries the id it was looked up by. -/
theorem getById_id (db : List Transaction) (i : Nat) (r : Transaction)
    (hr : getById db i = some r) : r.id = i := by
  induction db with
  | nil => simp [getById] at hr
  | cons x xs ih =>
    rw [getById_cons] at hr
    by_cases hx : x.id = i
    · rw [if_pos hx] at hr
      cases hr
      exact hx
    · rw [if_neg hx] at hr
      exact ih hr

/-- Membership gives a successful lookup. -/
theorem getById_isSome_of_mem (db : List Transaction) (t : Transaction)
    (ht : t ∈ db) : (getById db t.id).isSome := by
  induction db with
  | nil => cases ht
  | cons x xs ih =>
    rw [getById_cons]
    by_cases hx : x.id = t.id
    · simp [hx]
    · rcases List.mem_cons.mp ht with hh | hh
      · exact absurd (congrArg Transaction.id hh.symm) hx
      · simpa [hx] using ih hh

/-- Updating one id leaves lookups of other ids unchanged. -/
theorem getById_updateById_ne (db : List Transaction) (u : Transaction) (i : Nat)
    (hne : i ≠ u.id) : getById (updateById db u) i = getById db i := by
  induction db with
  | nil => rfl
  | cons x xs ih =>
    rw [updateById_cons, getById_cons, getById_cons]
    by_cases hx : x.id = u.id
    · rw [if_pos hx]
      have : ¬(u.id = i) := fun hc => hne hc.symm
      rw [if_neg this, if_neg (fun hc : x.id = i => hne (hx ▸ hc).symm)]
      exact ih
    · rw [if_neg hx]
      by_cases hxi : x.id = i
      · rw [if_pos hxi, if_pos hxi]
      · rw [if_neg hxi, if_neg hxi]
        exact ih

/-- Updating a present id makes the lookup return the update. -/
theorem getById_updateById_self (db : List Transaction) (u : Transaction)
    (r : Transaction) (hr : getById db u.id = some r) :
    getById (updateById db u) u.id = some u := by
  induction db with
  | nil => simp [getById] at hr
  | cons x xs ih =>
    rw [getById_cons] at hr
    rw [updateById_cons, getById_cons]
    by_cases hx : x.id = u.id
    · rw [if_pos hx]
      simp
    · rw [if_neg hx] at hr ⊢
      rw [if_neg hx]
      exact ih hr

/-- Updates preserve whether a lookup succeeds. -/
theorem getById_updateById_isSome (db : List Transaction) (u : Transaction)
    (i : Nat) : (getById (updateById db u) i).isSome = (getById db i).isSome := by
  induction db with
  | nil => rfl
  | cons x xs ih =>
    rw [updateById_cons, getById_cons, getById_cons]
    by_cases hx : x.id = u.id
    · rw [if_pos hx]
      by_cases hxi : x.id = i
      · rw [if_pos (hx ▸ hxi : u.id = i), if_pos hxi]
        rfl
      · rw [if_neg (fun hc : u.id = i => hxi (hx.trans hc)), if_neg hxi]
        exact ih
    · rw [if_neg hx]
      by_cases hxi : x.id = i
      · rw [if_pos hxi, if_pos hxi]
      · rw [if_neg hxi, if_neg hxi]
        exact ih

/-! Facts about the poller loops, under the hypothesis that no worker
invocation raises. -/

theorem scan_raised_none (st : Settings) (h : Horizon) (tid : Nat) (ac : String)
    (bs : List Balance) (db : List Transaction)
    (hr : ∀ t, (create_stellar_deposit st h t).raised = none) :
    (scanBalances st h tid ac bs db).raised = none := by
  induction bs generalizing db with
  | nil => rfl
  | cons b rest ih =>
    cases hb : b.asset_code with
    | none => simpa [scanBalances, hb] using ih db
    | some code =>
      by_cases hc : code = ac
      · cases hgid : getById db tid with
        | none => simp [scanBalances, hb, hc, hgid]
        | some row =>
          rcases hcs : create_stellar_deposit st h row with ⟨evs, fin, raised⟩
          have hx := hr row
          rw [hcs] at hx
          simp only at hx
          subst hx
          simp [scanBalances, hb, hc, hgid, hcs, ih]
      · simpa [scanBalances, hb, hc] using ih db



theorem scan_inv_all (st : Settings) (h : Horizon) (tid : Nat) (ac : String)
    (bs : List Balance) (db : List Transaction) :
    ∀ x ∈ (scanBalances st h tid ac bs db).invoked, x = tid := by
  induction bs generalizing db with
  | nil => intro x hx; cases hx
  | cons b rest ih =>
    cases hb : b.asset_code with
    | none => simpa [scanBalances, hb] using ih db
    | some code =>
      by_cases hc : code = ac
      · cases hgid : getById db tid with
        | none => simp [scanBalances, hb, hc, hgid]
        | some row =>
          rcases hcs : create_stellar_deposit st h row with ⟨evs, fin, raised⟩
          cases raised with
          | some e => simp [scanBalances, hb, hc, hgid, hcs]
          | none =>
            intro x hx
            simp only [scanBalances, hb, hc, if_pos, hgid, hcs] at hx
            rw [List.mem_cons] at hx
            rcases hx with hx | hx
            · exact hx
            · exact ih _ x hx
      · simpa [scanBalances, hb, hc] using ih db

theorem scan_getById_ne (st : Settings) (h : Horizon) (tid : Nat) (ac : String)
    (bs : List Balance) (db : List Transaction) (i : Nat) (hne : i ≠ tid) :
    getById (scanBalances st h tid ac bs db).db i = getById db i := by
  induction bs generalizing db with
  | nil => rfl
  | cons b rest ih =>
    cases hb : b.asset_code with
    | none => simpa [scanBalances, hb] using ih db
    | some code =>
      by_cases hc : code = ac
      · cases hgid : getById db tid with
        | none => simp [scanBalances, hb, hc, hgid]
        | some row =>
          rcases hcs : create_stellar_deposit st h row with ⟨evs, fin, raised⟩
          have hfinid : fin.id = tid := by
            have h1 := csd_final_id st h row
            rw [hcs] at h1
            simpa [getById_id db tid row hgid] using h1
          have hupd : getById (updateById db fin) i = getById db i := by
            rw [getById_updateById_ne db fin i (hfinid ▸ hne)]
          cases raised with
          | some e =>
            simp only [scanBalances, hb, hc, if_pos, hgid, hcs]
            exact hupd
          | none =>
            simp only [scanBalances, hb, hc, if_pos, hgid, hcs]
            rw [ih _]
            exact hupd
      · simpa [scanBalances, hb, hc] using ih db

theorem scan_isSome (st : Settings) (h : Horizon) (tid : Nat) (ac : String)
    (bs : List Balance) (db : List Transaction) (i : Nat) :
    (getById (scanBalances st h tid ac bs db).db i).isSome
      = (getById db i).isSome := by
  induction bs generalizing db with
  | nil => rfl
  | cons b rest ih =>
    cases hb : b.asset_code with
    | none => simpa [scanBalances, hb] using ih db
    | some code =>
      by_cases hc : code = ac
      · cases hgid : getById db tid with
        | none => simp [scanBalances, hb, hc, hgid]
        | some row =>
          rcases hcs : create_stellar_deposit st h row with ⟨evs, fin, raised⟩
          cases raised with
          | some e =>
            simp only [scanBalances, hb, hc, if_pos, hgid, hcs]
            exact getById_updateById_isSome db fin i
          | none =>
            simp only [scanBalances, hb, hc, if_pos, hgid, hcs]
            rw [ih _]
            exact getById_updateById_isSome db fin i
      · simpa [scanBalances, hb, hc] using ih db



theorem scan_inv_iff (st : Settings) (h : Horizon) (tid : Nat) (ac : String)
    (bs : List Balance) (db : List Transaction)
    (hpres : (getById db tid).isSome) :
    (scanBalances st h tid ac bs db).invoked ≠ []
      ↔ ∃ b ∈ bs, b.asset_code = some ac := by
  induction bs generalizing db with
  | nil => simp [scanBalances]
  | cons b rest ih =>
    cases hb : b.asset_code with
    | none =>
      rw [show scanBalances st h tid ac (b :: rest) db
            = scanBalances st h tid ac rest db by simp [scanBalances, hb]]
      rw [ih db hpres]
      simp [hb]
    | some code =>
      by_cases hc : code = ac
      · subst hc
        cases hgid : getById db tid with
        | none => rw [hgid] at hpres; cases hpres
        | some row =>
          rcases hcs : create_stellar_deposit st h row with ⟨evs, fin, raised⟩
          cases raised with
          | some e =>
            simp only [scanBalances, hb, if_pos, hgid, hcs]
            simp [hb]
          | none =>
            simp only [scanBalances, hb, if_pos, hgid, hcs]
            simp [hb]
      · rw [show scanBalances st h tid ac (b :: rest) db
              = scanBalances st h tid ac rest db by simp [scanBalances, hb, hc]]
        rw [ih db hpres]
        simp [hb, hc]

theorem scan_db_of_no_match (st : Settings) (h : Horizon) (tid : Nat) (ac : String)
    (bs : List Balance) (db : List Transaction)
    (hno : ¬ ∃ b ∈ bs, b.asset_code = some ac) :
    (scanBalances st h tid ac bs db).db = db := by
  induction bs generalizing db with
  | nil => rfl
  | cons b rest ih =>
    cases hb : b.asset_code with
    | none =>
      rw [show scanBalances st h tid ac (b :: rest) db
            = scanBalances st h tid ac rest db by simp [scanBalances, hb]]
      exact ih db (fun ⟨b2, hm, he⟩ => hno ⟨b2, List.mem_cons_of_mem b hm, he⟩)
    | some code =>
      by_cases hc : code = ac
      · exact absurd ⟨b, List.mem_cons_self b rest, by rw [hb, hc]⟩ hno
      · rw [show scanBalances st h tid ac (b :: rest) db
              = scanBalances st h tid ac rest db by simp [scanBalances, hb, hc]]
        exact ih db (fun ⟨b2, hm, he⟩ => hno ⟨b2, List.mem_cons_of_mem b hm, he⟩)

theorem scan_mono (st : Settings) (h : Horizon) (tid : Nat) (ac : String)
    (bs : List Balance) (db : List Transaction) :
    ∀ i a b2, getById db i = some a →
      getById (scanBalances st h tid ac bs db).db i = some b2 →
      rank a.status ≤ rank b2.status := by
  induction bs generalizing db with
  | nil =>
    intro i a b2 h1 h2
    rw [show (scanBalances st h tid ac [] db).db = db from rfl, h1] at h2
    cases h2
    exact Nat.le_refl _
  | cons b rest ih =>
    intro i a b2 h1 h2
    cases hb : b.asset_code with
    | none =>
      rw [show scanBalances st h tid ac (b :: rest) db
            = scanBalances st h tid ac rest db by simp [scanBalances, hb]] at h2
      exact ih db i a b2 h1 h2
    | some code =>
      by_cases hc : code = ac
      · cases hgid : getById db tid with
        | none =>
          rw [show scanBalances st h tid ac (b :: rest) db
                = { db := db, invoked := [], raised := none } by
              simp [scanBalances, hb, hc, hgid]] at h2
          simp only at h2
          rw [h1] at h2
          cases h2
          exact Nat.le_refl _
        | some row =>
          rcases hcs : create_stellar_deposit st h row with ⟨evs, fin, raised⟩
          have hrowid : row.id = tid := getById_id db tid row hgid
          have hfinid : fin.id = tid := by
            have hz := csd_final_id st h row
            rw [hcs] at hz
            simpa [hrowid] using hz
          have hmono : rank row.status ≤ rank fin.status := by
            have hz := csd_rank_mono st h row
            rw [hcs] at hz
            exact hz
          have hself : getById (updateById db fin) tid = some fin := by
            have h3 := getById_updateById_self db fin row (by rw [hfinid]; exact hgid)
            rw [hfinid] at h3
            exact h3
          have hstep : ∀ c, getById (updateById db fin) i = some c →
              rank a.status ≤ rank c.status := by
            intro c hcget
            by_cases hi : i = tid
            · have har : a = row := by
                rw [hi] at h1
                rw [h1] at hgid
                exact Option.some.inj hgid
              have hcf : c = fin := by
                rw [hi] at hcget
                rw [hself] at hcget
                exact (Option.some.inj hcget).symm
              rw [har, hcf]
              exact hmono
            · rw [getById_updateById_ne db fin i (by rw [hfinid]; exact hi)] at hcget
              rw [h1] at hcget
              cases hcget
              exact Nat.le_refl _
          cases raised with
          | some e =>
            rw [show scanBalances st h tid ac (b :: rest) db
                  = { db := updateById db fin, invoked := [tid], raised := some e } by
                simp [scanBalances, hb, hc, hgid, hcs]] at h2
            exact hstep b2 h2
          | none =>
            rw [show (scanBalances st h tid ac (b :: rest) db).db
                  = (scanBalances st h tid ac rest (updateById db fin)).db by
                simp [scanBalances, hb, hc, hgid, hcs]] at h2
            have hmid : ∃ c, getById (updateById db fin) i = some c := by
              have hz := getById_updateById_isSome db fin i
              rw [h1] at hz
              simp only [Option.isSome_some] at hz
              cases hw : getById (updateById db fin) i with
              | none => rw [hw] at hz; cases hz
              | some c => exact ⟨c, rfl⟩
            rcases hmid with ⟨c, hcget⟩
            exact Nat.le_trans (hstep c hcget) (ih (updateById db fin) i c b2 hcget h2)
      · rw [show scanBalances st h tid ac (b :: rest) db
              = scanBalances st h tid ac rest db by simp [scanBalances, hb, hc]] at h2
        exact ih db i a b2 h1 h2



theorem ctl_raised_none (st : Settings) (h : Horizon) (xs db : List Transaction)
    (hr : ∀ t, (create_stellar_deposit st h t).raised = none) :
    (ctlLoop st h xs db).raised = none := by
  induction xs generalizing db with
  | nil => rfl
  | cons t rest ih =>
    cases ha : h.accountCall t.stellar_account with
    | error e => simpa [ctlLoop, ha] using ih db
    | ok acct =>
      cases hbal : acct.balances with
      | none => simpa [ctlLoop, ha, hbal] using ih db
      | some balances =>
        rcases hscan : scanBalances st h t.id t.asset_code balances db with ⟨db1, inv, raised⟩
        have hz := scan_raised_none st h t.id t.asset_code balances db hr
        rw [hscan] at hz
        simp only at hz
        subst hz
        simp only [ctlLoop, ha, hbal, hscan]
        exact ih db1

theorem ctl_invoked_sub (st : Settings) (h : Horizon) (xs db : List Transaction) :
    ∀ x ∈ (ctlLoop st h xs db).invoked, x ∈ xs.map Transaction.id := by
  induction xs generalizing db with
  | nil => intro x hx; cases hx
  | cons t rest ih =>
    intro x hx
    cases ha : h.accountCall t.stellar_account with
    | error e =>
      rw [show ctlLoop st h (t :: rest) db = ctlLoop st h rest db by
        simp [ctlLoop, ha]] at hx
      exact List.mem_cons_of_mem _ (ih db x hx)
    | ok acct =>
      cases hbal : acct.balances with
      | none =>
        rw [show ctlLoop st h (t :: rest) db = ctlLoop st h rest db by
          simp [ctlLoop, ha, hbal]] at hx
        exact List.mem_cons_of_mem _ (ih db x hx)
      | some balances =>
        rcases hscan : scanBalances st h t.id t.asset_code balances db with ⟨db1, inv, raised⟩
        have hinv : ∀ y ∈ inv, y = t.id := by
          intro y hy
          have := scan_inv_all st h t.id t.asset_code balances db y
          rw [hscan] at this
          exact this hy
        cases raised with
        | some e =>
          rw [show (ctlLoop st h (t :: rest) db).invoked = inv by
            simp [ctlLoop, ha, hbal, hscan]] at hx
          rw [hinv x hx]
          exact List.mem_cons_self _ _
        | none =>
          rw [show (ctlLoop st h (t :: rest) db).invoked
              = inv ++ (ctlLoop st h rest db1).invoked by
            simp [ctlLoop, ha, hbal, hscan]] at hx
          rcases List.mem_append.mp hx with hx | hx
          · rw [hinv x hx]
            exact List.mem_cons_self _ _
          · exact List.mem_cons_of_mem _ (ih db1 x hx)

theorem ctl_getById_not_in (st : Settings) (h : Horizon) (xs db : List Transaction)
    (i : Nat) (hni : i ∉ xs.map Transaction.id) :
    getById (ctlLoop st h xs db).db i = getById db i := by
  induction xs generalizing db with
  | nil => rfl
  | cons t rest ih =>
    have hit : i ≠ t.id := fun hc => hni (by rw [hc]; exact List.mem_cons_self _ _)
    have hrest : i ∉ rest.map Transaction.id :=
      fun hc => hni (List.mem_cons_of_mem _ hc)
    cases ha : h.accountCall t.stellar_account with
    | error e =>
      rw [show ctlLoop st h (t :: rest) db = ctlLoop st h rest db by
        simp [ctlLoop, ha]]
      exact ih db hrest
    | ok acct =>
      cases hbal : acct.balances with
      | none =>
        rw [show ctlLoop st h (t :: rest) db = ctlLoop st h rest db by
          simp [ctlLoop, ha, hbal]]
        exact ih db hrest
      | some balances =>
        rcases hscan : scanBalances st h t.id t.asset_code balances db with ⟨db1, inv, raised⟩
        have hdb1 : getById db1 i = getById db i := by
          have := scan_getById_ne st h t.id t.asset_code balances db i hit
          rw [hscan] at this
          exact this
        cases raised with
        | some e =>
          rw [show (ctlLoop st h (t :: rest) db).db = db1 by
            simp [ctlLoop, ha, hbal, hscan]]
          exact hdb1
        | none =>
          rw [show (ctlLoop st h (t :: rest) db).db = (ctlLoop st h rest db1).db by
            simp [ctlLoop, ha, hbal, hscan]]
          rw [ih db1 hrest]
          exact hdb1

theorem ctl_isSome (st : Settings) (h : Horizon) (xs db : List Transaction)
    (i : Nat) :
    (getById (ctlLoop st h xs db).db i).isSome = (getById db i).isSome := by
  induction xs generalizing db with
  | nil => rfl
  | cons t rest ih =>
    cases ha : h.accountCall t.stellar_account with
    | error e => simpa [ctlLoop, ha] using ih db
    | ok acct =>
      cases hbal : acct.balances with
      | none => simpa [ctlLoop, ha, hbal] using ih db
      | some balances =>
        rcases hscan : scanBalances st h t.id t.asset_code balances db with ⟨db1, inv, raised⟩
        have hdb1 : (getById db1 i).isSome = (getById db i).isSome := by
          have := scan_isSome st h t.id t.asset_code balances db i
          rw [hscan] at this
          exact this
        cases raised with
        | some e =>
          rw [show (ctlLoop st h (t :: rest) db).db = db1 by
            simp [ctlLoop, ha, hbal, hscan]]
          exact hdb1
        | none =>
          rw [show (ctlLoop st h (t :: rest) db).db = (ctlLoop st h rest db1).db by
            simp [ctlLoop, ha, hbal, hscan]]
          rw [ih db1]
          exact hdb1



theorem eligible_eq_any (h : Horizon) (t : Transaction) (acct : AccountRecord)
    (balances : List Balance)
    (ha : h.accountCall t.stellar_account = Except.ok acct)
    (hbal : acct.balances = some balances) :
    eligible h t = balances.any (fun b => b.asset_code = some t.asset_code) := by
  simp [eligible, ha, hbal]

theorem ctl_mem_invoked_iff (st : Settings) (h : Horizon) (xs db : List Transaction)
    (hr : ∀ t2, (create_stellar_deposit st h t2).raised = none)
    (hnd : (xs.map Transaction.id).Nodup)
    (hpres : ∀ x ∈ xs, (getById db x.id).isSome)
    (t : Transaction) (ht : t ∈ xs) :
    t.id ∈ (ctlLoop st h xs db).invoked ↔ eligible h t = true := by
  induction xs generalizing db with
  | nil => cases ht
  | cons x rest ih =>
    have hndr : (rest.map Transaction.id).Nodup := (List.nodup_cons.mp hnd).2
    have hxr : x.id ∉ rest.map Transaction.id := (List.nodup_cons.mp hnd).1
    rcases List.mem_cons.mp ht with rfl | htr
    · -- t is the head
      cases ha : h.accountCall t.stellar_account with
      | error e =>
        rw [show ctlLoop st h (t :: rest) db = ctlLoop st h rest db by
          simp [ctlLoop, ha]]
        constructor
        · intro hmem
          exact absurd (ctl_invoked_sub st h rest db t.id hmem) hxr
        · intro helig
          rw [show eligible h t = false by simp [eligible, ha]] at helig
          cases helig
      | ok acct =>
        cases hbal : acct.balances with
        | none =>
          rw [show ctlLoop st h (t :: rest) db = ctlLoop st h rest db by
            simp [ctlLoop, ha, hbal]]
          constructor
          · intro hmem
            exact absurd (ctl_invoked_sub st h rest db t.id hmem) hxr
          · intro helig
            rw [show eligible h t = false by simp [eligible, ha, hbal]] at helig
            cases helig
        | some balances =>
          rcases hscan : scanBalances st h t.id t.asset_code balances db with ⟨db1, inv, raised⟩
          have hz := scan_raised_none st h t.id t.asset_code balances db hr
          rw [hscan] at hz
          simp only at hz
          subst hz
          rw [show (ctlLoop st h (t :: rest) db).invoked
              = inv ++ (ctlLoop st h rest db1).invoked by
            simp [ctlLoop, ha, hbal, hscan]]
          have hinvall : ∀ y ∈ inv, y = t.id := by
            intro y hy
            have := scan_inv_all st h t.id t.asset_code balances db y
            rw [hscan] at this
            exact this hy
          have hiff : inv ≠ [] ↔ ∃ b ∈ balances, b.asset_code = some t.asset_code := by
            have := scan_inv_iff st h t.id t.asset_code balances db
              (hpres t (List.mem_cons_self _ _))
            rw [hscan] at this
            exact this
          rw [eligible_eq_any h t acct balances ha hbal]
          rw [List.mem_append]
          constructor
          · intro hmem
            rcases hmem with hmem | hmem
            · have hne : inv ≠ [] := by
                intro hc
                rw [hc] at hmem
                cases hmem
              rcases hiff.mp hne with ⟨b, hbm, hbe⟩
              rw [List.any_eq_true]
              exact ⟨b, hbm, by simp [hbe]⟩
            · exact absurd (ctl_invoked_sub st h rest db1 t.id hmem) hxr
          · intro helig
            rw [List.any_eq_true] at helig
            rcases helig with ⟨b, hbm, hbe⟩
            simp only [decide_eq_true_eq] at hbe
            have hne : inv ≠ [] := hiff.mpr ⟨b, hbm, hbe⟩
            left
            cases hinvv : inv with
            | nil => exact absurd hinvv hne
            | cons y ys =>
              have hy : y = t.id := hinvall y (by rw [hinvv]; exact List.mem_cons_self _ _)
              rw [← hy]
              exact List.mem_cons_self _ _
    · -- t is in the tail
      have hxt : t.id ≠ x.id := by
        intro hc
        exact hxr (hc ▸ List.mem_map_of_mem Transaction.id htr)
      cases ha : h.accountCall x.stellar_account with
      | error e =>
        rw [show ctlLoop st h (x :: rest) db = ctlLoop st h rest db by
          simp [ctlLoop, ha]]
        exact ih db hndr (fun y hy => hpres y (List.mem_cons_of_mem _ hy)) htr
      | ok acct =>
        cases hbal : acct.balances with
        | none =>
          rw [show ctlLoop st h (x :: rest) db = ctlLoop st h rest db by
            simp [ctlLoop, ha, hbal]]
          exact ih db hndr (fun y hy => hpres y (List.mem_cons_of_mem _ hy)) htr
        | some balances =>
          rcases hscan : scanBalances st h x.id x.asset_code balances db with ⟨db1, inv, raised⟩
          have hz := scan_raised_none st h x.id x.asset_code balances db hr
          rw [hscan] at hz
          simp only at hz
          subst hz
          rw [show (ctlLoop st h (x :: rest) db).invoked
              = inv ++ (ctlLoop st h rest db1).invoked by
            simp [ctlLoop, ha, hbal, hscan]]
          have hinvall : ∀ y ∈ inv, y = x.id := by
            intro y hy
            have := scan_inv_all st h x.id x.asset_code balances db y
            rw [hscan] at this
            exact this hy
          have hpres1 : ∀ y ∈ rest, (getById db1 y.id).isSome := by
            intro y hy
            have := scan_isSome st h x.id x.asset_code balances db y.id
            rw [hscan] at this
            simp only at this
            rw [this]
            exact hpres y (List.mem_cons_of_mem _ hy)
          rw [List.mem_append]
          constructor
          · intro hmem
            rcases hmem with hmem | hmem
            · exact absurd (hinvall t.id hmem) hxt
            · exact (ih db1 hndr hpres1 htr).mp hmem
          · intro helig
            right
            exact (ih db1 hndr hpres1 htr).mpr helig



theorem ctl_untouched (st : Settings) (h : Horizon) (xs db : List Transaction)
    (hr : ∀ t2, (create_stellar_deposit st h t2).raised = none)
    (hnd : (xs.map Transaction.id).Nodup)
    (t : Transaction) (ht : t ∈ xs) (helig : eligible h t = false) :
    getById (ctlLoop st h xs db).db t.id = getById db t.id := by
  induction xs generalizing db with
  | nil => cases ht
  | cons x rest ih =>
    have hndr : (rest.map Transaction.id).Nodup := (List.nodup_cons.mp hnd).2
    have hxr : x.id ∉ rest.map Transaction.id := (List.nodup_cons.mp hnd).1
    rcases List.mem_cons.mp ht with rfl | htr
    · -- t is the head; its id does not occur in the tail
      have hnotin : t.id ∉ rest.map Transaction.id := hxr
      cases ha : h.accountCall t.stellar_account with
      | error e =>
        rw [show ctlLoop st h (t :: rest) db = ctlLoop st h rest db by
          simp [ctlLoop, ha]]
        exact ctl_getById_not_in st h rest db t.id hnotin
      | ok acct =>
        cases hbal : acct.balances with
        | none =>
          rw [show ctlLoop st h (t :: rest) db = ctlLoop st h rest db by
            simp [ctlLoop, ha, hbal]]
          exact ctl_getById_not_in st h rest db t.id hnotin
        | some balances =>
          have hany : balances.any (fun b => b.asset_code = some t.asset_code) = false := by
            rw [← eligible_eq_any h t acct balances ha hbal]
            exact helig
          have hno : ¬ ∃ b ∈ balances, b.asset_code = some t.asset_code := by
            rw [List.any_eq_false] at hany
            intro ⟨b, hbm, hbe⟩
            exact absurd (by simpa using hbe) (by simpa using hany b hbm)
          rcases hscan : scanBalances st h t.id t.asset_code balances db with ⟨db1, inv, raised⟩
          have hdb1 : db1 = db := by
            have hq := scan_db_of_no_match st h t.id t.asset_code balances db hno
            rw [hscan] at hq
            exact hq
          have hz : raised = none := by
            have hq := scan_raised_none st h t.id t.asset_code balances db hr
            rw [hscan] at hq
            exact hq
          subst hz
          rw [show (ctlLoop st h (t :: rest) db).db = (ctlLoop st h rest db1).db by
            simp [ctlLoop, ha, hbal, hscan]]
          rw [hdb1]
          exact ctl_getById_not_in st h rest db t.id hnotin
    · -- t is in the tail
      have hxt : t.id ≠ x.id := by
        intro hc
        exact hxr (hc ▸ List.mem_map_of_mem Transaction.id htr)
      cases ha : h.accountCall x.stellar_account with
      | error e =>
        rw [show ctlLoop st h (x :: rest) db = ctlLoop st h rest db by
          simp [ctlLoop, ha]]
        exact ih db hndr htr
      | ok acct =>
        cases hbal : acct.balances with
        | none =>
          rw [show ctlLoop st h (x :: rest) db = ctlLoop st h rest db by
            simp [ctlLoop, ha, hbal]]
          exact ih db hndr htr
        | some balances =>
          rcases hscan : scanBalances st h x.id x.asset_code balances db with ⟨db1, inv, raised⟩
          have hz := scan_raised_none st h x.id x.asset_code balances db hr
          rw [hscan] at hz
          simp only at hz
          subst hz
          have hdb1 : getById db1 t.id = getById db t.id := by
            have := scan_getById_ne st h x.id x.asset_code balances db t.id hxt
            rw [hscan] at this
            exact this
          rw [show (ctlLoop st h (x :: rest) db).db = (ctlLoop st h rest db1).db by
            simp [ctlLoop, ha, hbal, hscan]]
          rw [ih db1 hndr htr]
          exact hdb1

theorem ctl_mono (st : Settings) (h : Horizon) (xs db : List Transaction) :
    ∀ i a b2, getById db i = some a →
      getById (ctlLoop st h xs db).db i = some b2 →
      rank a.status ≤ rank b2.status := by
  induction xs generalizing db with
  | nil =>
    intro i a b2 h1 h2
    rw [show (ctlLoop st h [] db).db = db from rfl, h1] at h2
    cases h2
    exact Nat.le_refl _
  | cons t rest ih =>
    intro i a b2 h1 h2
    cases ha : h.accountCall t.stellar_account with
    | error e =>
      rw [show ctlLoop st h (t :: rest) db = ctlLoop st h rest db by
        simp [ctlLoop, ha]] at h2
      exact ih db i a b2 h1 h2
    | ok acct =>
      cases hbal : acct.balances with
      | none =>
        rw [show ctlLoop st h (t :: rest) db = ctlLoop st h rest db by
          simp [ctlLoop, ha, hbal]] at h2
        exact ih db i a b2 h1 h2
      | some balances =>
        rcases hscan : scanBalances st h t.id t.asset_code balances db with ⟨db1, inv, raised⟩
        have hscanmono : ∀ c, getById db1 i = some c → rank a.status ≤ rank c.status := by
          intro c hc
          have := scan_mono st h t.id t.asset_code balances db i a c h1
          rw [hscan] at this
          exact this hc
        have hsome1 : (getById db1 i).isSome := by
          have := scan_isSome st h t.id t.asset_code balances db i
          rw [hscan] at this
          simp only at this
          rw [this, h1]
          rfl
        cases raised with
        | some e =>
          rw [show (ctlLoop st h (t :: rest) db).db = db1 by
            simp [ctlLoop, ha, hbal, hscan]] at h2
          exact hscanmono b2 h2
        | none =>
          rw [show (ctlLoop st h (t :: rest) db).db = (ctlLoop st h rest db1).db by
            simp [ctlLoop, ha, hbal, hscan]] at h2
          cases hw : getById db1 i with
          | none => rw [hw] at hsome1; cases hsome1
          | some c =>
            exact Nat.le_trans (hscanmono c hw) (ih db1 i c b2 hw h2)

/-! Claim theorems, witnesses and counterexamples. -/

/-- C1: a call to the Deposit Settlement Worker whose loaded status is
neither `pending_anchor` nor `pending_trust` returns without changing any
field of the transaction, without any persisted write and without any
ledger call; with status `pending_anchor` or `pending_trust`, the worker
sets `status = pending_stellar` and persists that write before making any
ledger network call — the persisted mutex write is the first event of the
run. -/
theorem claim_C1_gate_and_mutex (st : Settings) (h : Horizon) (t0 : Transaction) :
    (¬(t0.status = Status.pending_anchor ∨ t0.status = Status.pending_trust) →
      create_stellar_deposit st h t0 = { events := [], final := t0, raised := none })
    ∧ ((t0.status = Status.pending_anchor ∨ t0.status = Status.pending_trust) →
      ∃ rest, (create_stellar_deposit st h t0).events
        = Event.save { t0 with status := Status.pending_stellar } :: rest) :=
  ⟨csd_noop_eq st h t0, csd_mutex_first st h t0⟩

/-- Witness for C1 at concrete inputs: a completed transaction is left
untouched, and a `pending_anchor` transaction gets the persisted mutex
write as the first event of its run. -/
theorem claim_C1_witness :
    (create_stellar_deposit exSettings horizonOk exCompleted
        = { events := [], final := exCompleted, raised := none })
    ∧ ∃ rest, (create_stellar_deposit exSettings horizonOk exDeposit).events
        = Event.save { exDeposit with status := Status.pending_stellar } :: rest :=
  ⟨(claim_C1_gate_and_mutex exSettings horizonOk exCompleted).1 (by decide),
   (claim_C1_gate_and_mutex exSettings horizonOk exDeposit).2 (Or.inl rfl)⟩

/-- C2 counterexample: with a `pending_anchor` transaction and a ledger
whose payment submission fails with the no-trustline code, the first call
ends in `pending_trust`, so the second call — started after the first
returns — passes the gate again: the two calls together perform two
ledger submissions and the second call is not a no-op. -/
theorem claim_C2_counterexample :
    submitCount ((create_stellar_deposit exSettings horizonTrustline exDeposit).events
        ++ (create_stellar_deposit exSettings horizonTrustline
              (create_stellar_deposit exSettings horizonTrustline exDeposit).final).events)
      = 2
    ∧ (create_stellar_deposit exSettings horizonTrustline
        (create_stellar_deposit exSettings horizonTrustline exDeposit).final).events
      ≠ [] := by
  decide

/-- C2 (amended): each invocation performs at most one ledger submission;
and whenever the first call leaves the status outside
pending_anchor / pending_trust (in particular on the success path and on
every path that keeps `pending_stellar`), the second call is a strict
no-op, so at most one ledger submission happens across both calls. -/
theorem claim_C2_amended (st : Settings) (h : Horizon) (t0 : Transaction)
    (hend : ¬((create_stellar_deposit st h t0).final.status = Status.pending_anchor ∨
              (create_stellar_deposit st h t0).final.status = Status.pending_trust)) :
    create_stellar_deposit st h (create_stellar_deposit st h t0).final
      = { events := [], final := (create_stellar_deposit st h t0).final, raised := none }
    ∧ submitCount ((create_stellar_deposit st h t0).events
        ++ (create_stellar_deposit st h
              (create_stellar_deposit st h t0).final).events) ≤ 1 := by
  have hnoop := csd_noop_eq st h _ hend
  refine ⟨hnoop, ?_⟩
  rw [hnoop]
  simpa using csd_submit_le st h t0

/-- Witness for C2 (amended) on the success path: the first call
completes the deposit and the second call is a no-op. -/
theorem claim_C2_witness :
    create_stellar_deposit exSettings horizonOk
        (create_stellar_deposit exSettings horizonOk exDeposit).final
      = { events := [],
          final := (create_stellar_deposit exSettings horizonOk exDeposit).final,
          raised := none }
    ∧ submitCount ((create_stellar_deposit exSettings horizonOk exDeposit).events
        ++ (create_stellar_deposit exSettings horizonOk
              (create_stellar_deposit exSettings horizonOk exDeposit).final).events) ≤ 1 :=
  claim_C2_amended exSettings horizonOk exDeposit (by decide)

/-- C3 counterexample: in the no-trustline run, the persisted status
writes are `pending_stellar` followed by `pending_trust`, and
`pending_trust` is strictly earlier in the §4.1 transition graph than the
persisted `pending_stellar` it replaces — a regressing status write. -/
theorem claim_C3_counterexample :
    (saves (create_stellar_deposit exSettings horizonTrustline exDeposit).events).map
        Transaction.status = [Status.pending_stellar, Status.pending_trust]
    ∧ rank Status.pending_trust < rank Status.pending_stellar := by
  decide

/-- C3 (amended): monotonicity holds at invocation granularity — the
worker never exits with a status earlier than its entry status, a poller
tick never leaves any row with a status earlier than it had before the
tick, and the withdrawal matcher only moves `pending_user_transfer_start`
forward; only the intermediate deferral write
`pending_stellar → pending_trust` inside a worker invocation regresses. -/
theorem claim_C3_amended (st : Settings) (h : Horizon) (t0 : Transaction)
    (db : List Transaction) (now2 : Nat) (p : PaymentRecord) (tw : Transaction)
    (htw : tw.status = Status.pending_user_transfer_start) :
    rank t0.status ≤ rank (create_stellar_deposit st h t0).final.status
    ∧ (∀ i a b2, getById db i = some a →
        getById (check_trustlines st h db).db i = some b2 →
        rank a.status ≤ rank b2.status)
    ∧ rank tw.status ≤ rank (process_withdrawal now2 p tw).status := by
  refine ⟨csd_rank_mono st h t0, ?_, ?_⟩
  · intro i a b2 h1 h2
    exact ctl_mono st h _ db i a b2 h1 h2
  · unfold process_withdrawal
    cases hp : p.successful <;> simp [hp, htw, rank]

/-- Witness for C3 (amended) at concrete inputs. -/
theorem claim_C3_witness :
    rank exDeposit.status
      ≤ rank (create_stellar_deposit exSettings horizonOk exDeposit).final.status
    ∧ (∀ i a b2, getById [exTrust1] i = some a →
        getById (check_trustlines exSettings horizonOk [exTrust1]).db i = some b2 →
        rank a.status ≤ rank b2.status)
    ∧ rank exWithdrawal.status
      ≤ rank (process_withdrawal 42 exPayment exWithdrawal).status :=
  claim_C3_amended exSettings horizonOk exDeposit [exTrust1] 42 exPayment
    exWithdrawal (by decide)

/-- C4 counterexample: an error of the base-fee fetch (an unguarded
ledger call) propagates out of `create_stellar_deposit` and — through the
synchronous worker invocation — out of `check_trustlines` as well. -/
theorem claim_C4_counterexample :
    (create_stellar_deposit exSettings horizonFeeDown exDeposit).raised ≠ none
    ∧ (check_trustlines exSettings horizonFeeDown [exTrust1]).raised ≠ none := by
  decide

/-- C4 (amended): provided the two unguarded calls — the
distribution-account load and the base-fee fetch — succeed, every other
ledger-call outcome (destination lookup errors of any status, submission
errors of any classification, poller account-query errors) leaves both
`create_stellar_deposit` and `check_trustlines` returning normally. -/
theorem claim_C4_amended (st : Settings) (h : Horizon) (t0 : Transaction)
    (db : List Transaction) (f : Nat)
    (hA : h.loadAccount st.distributionAccount = Except.ok ())
    (hB : h.fetchBaseFee = Except.ok f) :
    (create_stellar_deposit st h t0).raised = none
    ∧ (check_trustlines st h db).raised = none := by
  refine ⟨csd_raised_none st h t0 f hA hB, ?_⟩
  exact ctl_raised_none st h _ db (fun t2 => csd_raised_none st h t2 f hA hB)

/-- Witness for C4 (amended) in a ledger whose destination lookups all
fail transiently: nothing is raised. -/
theorem claim_C4_witness :
    (create_stellar_deposit exSettings horizonLookupDown exDeposit).raised = none
    ∧ (check_trustlines exSettings horizonLookupDown [exTrust1]).raised = none :=
  claim_C4_amended exSettings horizonLookupDown exDeposit [exTrust1] 100 rfl rfl

/-- C5 counterexample: after a transient (HTTP 500) destination-lookup
error the transaction is left in `pending_stellar`, not in the
`pending_trust` set that the reconciliation poller rescans. -/
theorem claim_C5_counterexample :
    (create_stellar_deposit exSettings horizonLookupDown exDeposit).final.status
      = Status.pending_stellar
    ∧ (create_stellar_deposit exSettings horizonLookupDown exDeposit).final.status
      ≠ Status.pending_trust := by
  decide

/-- C5 (amended): a transient (non-404) destination-lookup error makes
the worker return with the transaction left at `pending_stellar` —
outside the `pending_trust` selection set of the poller — and with no
ledger submission performed, so the next poller tick does not rescan it
and there is no automatic retry. -/
theorem claim_C5_amended (st : Settings) (h : Horizon) (t0 : Transaction)
    (f : Nat) (e : HorizonError)
    (hs : t0.status = Status.pending_anchor ∨ t0.status = Status.pending_trust)
    (hA : h.loadAccount st.distributionAccount = Except.ok ())
    (hB : h.fetchBaseFee = Except.ok f)
    (hC : h.loadAccount t0.stellar_account = Except.error e)
    (h404 : e.status ≠ 404) :
    (create_stellar_deposit st h t0).final.status = Status.pending_stellar
    ∧ (create_stellar_deposit st h t0).final.status ≠ Status.pending_trust
    ∧ submitCount (create_stellar_deposit st h t0).events = 0 := by
  rw [csd_lookupErr_eq st h t0 f e hs hA hB hC h404]
  exact ⟨rfl, by simp, by simp [submitCount]⟩

/-- Witness for C5 (amended) at concrete inputs. -/
theorem claim_C5_witness :
    (create_stellar_deposit exSettings horizonLookupDown exDeposit).final.status
      = Status.pending_stellar
    ∧ (create_stellar_deposit exSettings horizonLookupDown exDeposit).final.status
      ≠ Status.pending_trust
    ∧ submitCount (create_stellar_deposit exSettings horizonLookupDown exDeposit).events
      = 0 :=
  claim_C5_amended exSettings horizonLookupDown exDeposit 100
    { status := 500, message := "timeout", result_xdr := "" }
    (Or.inl rfl) rfl rfl rfl (by decide)

/-- C6: on the success path — a `pending_anchor` deposit whose destination
account exists and whose payment submission returns the canonical
payment-success result code — the worker sets `status = completed`,
`completed_at = now`, `status_eta = 0`, `stellar_transaction_id` to the
returned ledger transaction id, and
`amount_out = round(amount_in - amount_fee, 7)`. -/
theorem claim_C6_success_path (st : Settings) (h : Horizon) (t0 : Transaction)
    (f : Nat) (resp : TxResponse)
    (hs : t0.status = Status.pending_anchor)
    (hA : h.loadAccount st.distributionAccount = Except.ok ())
    (hB : h.fetchBaseFee = Except.ok f)
    (hC : h.loadAccount t0.stellar_account = Except.ok ())
    (hD : h.submit SubmitKind.payment = Except.ok resp)
    (hX : resp.result_xdr = SUCCESS_XDR) :
    (create_stellar_deposit st h t0).final.status = Status.completed
    ∧ (create_stellar_deposit st h t0).final.completed_at = some st.now
    ∧ (create_stellar_deposit st h t0).final.status_eta = some 0
    ∧ (create_stellar_deposit st h t0).final.stellar_transaction_id = some resp.hash
    ∧ (create_stellar_deposit st h t0).final.amount_out
      = some (round7 (t0.amount_in - t0.amount_fee)) := by
  rw [csd_success_eq st h t0 f resp (Or.inl hs) hA hB hC hD hX]
  exact ⟨rfl, rfl, rfl, rfl, rfl⟩

/-- Witness for C6 at concrete inputs. -/
theorem claim_C6_witness :
    (create_stellar_deposit exSettings horizonOk exDeposit).final.status
      = Status.completed
    ∧ (create_stellar_deposit exSettings horizonOk exDeposit).final.completed_at
      = some exSettings.now
    ∧ (create_stellar_deposit exSettings horizonOk exDeposit).final.status_eta
      = some 0
    ∧ (create_stellar_deposit exSettings horizonOk exDeposit).final.stellar_transaction_id
      = some "txhash"
    ∧ (create_stellar_deposit exSettings horizonOk exDeposit).final.amount_out
      = some (round7 (exDeposit.amount_in - exDeposit.amount_fee)) :=
  claim_C6_success_path exSettings horizonOk exDeposit 100
    { result_xdr := SUCCESS_XDR, hash := "txhash" } rfl rfl rfl rfl rfl rfl

/-- C7: when the destination account exists but the payment submission
fails with an error payload containing the no-trustline result code, the
worker ends with `status = pending_trust` and records no payment —
`stellar_transaction_id`, `completed_at` and `amount_out` are exactly as
before the call. -/
theorem claim_C7_no_trustline (st : Settings) (h : Horizon) (t0 : Transaction)
    (f : Nat) (e : HorizonError)
    (hs : t0.status = Status.pending_anchor ∨ t0.status = Status.pending_trust)
    (hA : h.loadAccount st.distributionAccount = Except.ok ())
    (hB : h.fetchBaseFee = Except.ok f)
    (hC : h.loadAccount t0.stellar_account = Except.ok ())
    (hD : h.submit SubmitKind.payment = Except.error e)
    (htl : strContains TRUSTLINE_FAILURE_XDR e.result_xdr = true) :
    (create_stellar_deposit st h t0).final.status = Status.pending_trust
    ∧ (create_stellar_deposit st h t0).final.stellar_transaction_id
      = t0.stellar_transaction_id
    ∧ (create_stellar_deposit st h t0).final.completed_at = t0.completed_at
    ∧ (create_stellar_deposit st h t0).final.amount_out = t0.amount_out := by
  rw [csd_trustlineErr_eq st h t0 f e hs hA hB hC hD htl]
  exact ⟨rfl, rfl, rfl, rfl⟩

/-- Witness for C7 at concrete inputs: the fields stay unset. -/
theorem claim_C7_witness :
    (create_stellar_deposit exSettings horizonTrustline exDeposit).final.status
      = Status.pending_trust
    ∧ (create_stellar_deposit exSettings horizonTrustline exDeposit).final.stellar_transaction_id
      = exDeposit.stellar_transaction_id
    ∧ (create_stellar_deposit exSettings horizonTrustline exDeposit).final.completed_at
      = exDeposit.completed_at
    ∧ (create_stellar_deposit exSettings horizonTrustline exDeposit).final.amount_out
      = exDeposit.amount_out :=
  claim_C7_no_trustline exSettings horizonTrustline exDeposit 100
    { status := 400, message := "op failed",
      result_xdr := "wrapped:" ++ TRUSTLINE_FAILURE_XDR }
    (Or.inl rfl) rfl rfl rfl rfl (by decide)

/-- C8: when the destination account of a `pending_anchor` deposit does
not exist (lookup fails with 404), the worker issues exactly one
create-account submission and no payment submission; if that submission
succeeds the transaction ends in `pending_trust`, and if it fails the
transaction remains at `pending_stellar` with no write beyond the initial
mutex write. -/
theorem claim_C8_no_account (st : Settings) (h : Horizon) (t0 : Transaction)
    (f : Nat) (e : HorizonError)
    (hs : t0.status = Status.pending_anchor)
    (hA : h.loadAccount st.distributionAccount = Except.ok ())
    (hB : h.fetchBaseFee = Except.ok f)
    (hC : h.loadAccount t0.stellar_account = Except.error e)
    (h404 : e.status = 404) :
    submitCountK SubmitKind.createAccount (create_stellar_deposit st h t0).events = 1
    ∧ submitCountK SubmitKind.payment (create_stellar_deposit st h t0).events = 0
    ∧ (∀ u, h.submit SubmitKind.createAccount = Except.ok u →
        (create_stellar_deposit st h t0).final.status = Status.pending_trust)
    ∧ (∀ e2, h.submit SubmitKind.createAccount = Except.error e2 →
        (create_stellar_deposit st h t0).final.status = Status.pending_stellar
        ∧ saves (create_stellar_deposit st h t0).events
          = [{ t0 with status := Status.pending_stellar }]) := by
  cases hD : h.submit SubmitKind.createAccount with
  | error e2 =>
    rw [csd_createErr_eq st h t0 f e e2 (Or.inl hs) hA hB hC h404 hD]
    refine ⟨by simp [submitCountK], by simp [submitCountK], ?_, ?_⟩
    · intro u hu
      cases hu
    · intro e3 he3
      exact ⟨rfl, by simp [saves]⟩
  | ok u =>
    rw [csd_createOk_eq st h t0 f e u (Or.inl hs) hA hB hC h404 hD]
    refine ⟨by simp [submitCountK], by simp [submitCountK], fun u2 hu2 => rfl, ?_⟩
    intro e3 he3
    cases he3

/-- Witness for C8 at concrete inputs (missing destination account,
create-account submission succeeding). -/
theorem claim_C8_witness :
    submitCountK SubmitKind.createAccount
      (create_stellar_deposit exSettings horizonNoAccount exDeposit).events = 1
    ∧ submitCountK SubmitKind.payment
      (create_stellar_deposit exSettings horizonNoAccount exDeposit).events = 0
    ∧ (∀ u, horizonNoAccount.submit SubmitKind.createAccount = Except.ok u →
        (create_stellar_deposit exSettings horizonNoAccount exDeposit).final.status
          = Status.pending_trust)
    ∧ (∀ e2, horizonNoAccount.submit SubmitKind.createAccount = Except.error e2 →
        (create_stellar_deposit exSettings horizonNoAccount exDeposit).final.status
          = Status.pending_stellar
        ∧ saves (create_stellar_deposit exSettings horizonNoAccount exDeposit).events
          = [{ exDeposit with status := Status.pending_stellar }]) :=
  claim_C8_no_account exSettings horizonNoAccount exDeposit 100
    { status := 404, message := "missing", result_xdr := "" } rfl rfl rfl rfl rfl

/-- C9 counterexample: with the base-fee fetch failing, the first
invocation raises and aborts the tick, so the second `pending_trust`
transaction — although its ledger balances match its asset code — is
never re-invoked: the invoked set is not the eligible set. -/
theorem claim_C9_counterexample :
    exTrust2.status = Status.pending_trust
    ∧ eligible horizonFeeDown exTrust2 = true
    ∧ (check_trustlines exSettings horizonFeeDown [exTrust1, exTrust2]).invoked = [1]
    ∧ exTrust2.id ∉
        (check_trustlines exSettings horizonFeeDown [exTrust1, exTrust2]).invoked := by
  decide

/-- C9 (amended): provided no worker invocation propagates an error (the
distribution-account load and base-fee fetch succeed) and row ids are
unique, a tick of `check_trustlines` re-invokes the worker exactly for
the `pending_trust` rows whose account loads, whose response has a
balances list, and whose balances contain a matching asset code; every
other `pending_trust` row is left with its database row unchanged. -/
theorem claim_C9_amended (st : Settings) (h : Horizon) (db : List Transaction)
    (f : Nat)
    (hnd : (db.map Transaction.id).Nodup)
    (hA : h.loadAccount st.distributionAccount = Except.ok ())
    (hB : h.fetchBaseFee = Except.ok f) :
    (check_trustlines st h db).raised = none
    ∧ (∀ t ∈ db, t.status = Status.pending_trust →
        (t.id ∈ (check_trustlines st h db).invoked ↔ eligible h t = true))
    ∧ (∀ t ∈ db, t.status = Status.pending_trust → eligible h t = false →
        getById (check_trustlines st h db).db t.id = getById db t.id) := by
  have hr : ∀ t2, (create_stellar_deposit st h t2).raised = none :=
    fun t2 => csd_raised_none st h t2 f hA hB
  have hsub : List.Sublist
      ((db.filter (fun t => t.status = Status.pending_trust)).map Transaction.id)
      (db.map Transaction.id) :=
    List.Sublist.map Transaction.id (List.filter_sublist db)
  have hndf : ((db.filter (fun t => t.status = Status.pending_trust)).map
      Transaction.id).Nodup := List.Nodup.sublist hsub hnd
  refine ⟨ctl_raised_none st h _ db hr, ?_, ?_⟩
  · intro t htm hts
    have htf : t ∈ db.filter (fun t => t.status = Status.pending_trust) := by
      rw [List.mem_filter]
      exact ⟨htm, by simp [hts]⟩
    exact ctl_mem_invoked_iff st h _ db hr hndf
      (fun x hx => getById_isSome_of_mem db x (List.mem_of_mem_filter hx)) t htf
  · intro t htm hts helig
    have htf : t ∈ db.filter (fun t => t.status = Status.pending_trust) := by
      rw [List.mem_filter]
      exact ⟨htm, by simp [hts]⟩
    exact ctl_untouched st h _ db hr hndf t htf helig

/-- Witness for C9 (amended) on a one-row database whose account holds
the matching trustline. -/
theorem claim_C9_witness :
    (check_trustlines exSettings horizonOk [exTrust1]).raised = none
    ∧ (∀ t ∈ [exTrust1], t.status = Status.pending_trust →
        (t.id ∈ (check_trustlines exSettings horizonOk [exTrust1]).invoked
          ↔ eligible horizonOk t = true))
    ∧ (∀ t ∈ [exTrust1], t.status = Status.pending_trust →
        eligible horizonOk t = false →
        getById (check_trustlines exSettings horizonOk [exTrust1]).db t.id
          = getById [exTrust1] t.id) :=
  claim_C9_amended exSettings horizonOk [exTrust1] 100 (by decide) rfl rfl

/-- C10 (modelled from the spec, §4.4): for a pending withdrawal and a
matched incoming payment record, `process_withdrawal` with
`successful = true` sets `status = completed`, sets `completed_at` and
records the ledger transaction id; with `successful = false` it sets
`status = pending_stellar` and leaves `completed_at` unset. -/
theorem claim_C10_withdrawal (now2 : Nat) (p : PaymentRecord) (t : Transaction)
    (hs : t.status = Status.pending_user_transfer_start)
    (hc : t.completed_at = none) :
    (p.successful = true →
      (process_withdrawal now2 p t).status = Status.completed
      ∧ (process_withdrawal now2 p t).completed_at = some now2
      ∧ (process_withdrawal now2 p t).stellar_transaction_id = some p.id)
    ∧ (p.successful = false →
      (process_withdrawal now2 p t).status = Status.pending_stellar
      ∧ (process_withdrawal now2 p t).completed_at = none) := by
  have hkeep := hs
  constructor
  · intro hp
    simp [process_withdrawal, hp]
  · intro hp
    simp [process_withdrawal, hp, hc]

/-- Witness for C10 at concrete inputs (a successful payment record). -/
theorem claim_C10_witness :
    (exPayment.successful = true →
      (process_withdrawal 42 exPayment exWithdrawal).status = Status.completed
      ∧ (process_withdrawal 42 exPayment exWithdrawal).completed_at = some 42
      ∧ (process_withdrawal 42 exPayment exWithdrawal).stellar_transaction_id
        = some exPayment.id)
    ∧ (exPayment.successful = false →
      (process_withdrawal 42 exPayment exWithdrawal).status = Status.pending_stellar
      ∧ (process_withdrawal 42 exPayment exWithdrawal).completed_at = none) :=
  claim_C10_withdrawal 42 exPayment exWithdrawal rfl rfl

end Anchor
